import Mathlib

/-!
# go-relay, `relay/messages/execution.go`

A shallow embedding of the execution request of the relay and of its two
operations, `Parse` (decomposition of `Command` and `ReplyTo`) and
`ToCircuitRequest` (resolution against a bundle), followed by the properties
proved about them.

Go strings are byte sequences.  The two separators used by `Parse` are the
one-byte strings ":" and "/", so `strings.SplitN` is embedded for a one-byte
separator.
-/

set_option autoImplicit false

namespace Messages

/-! ## Go strings and `strings.SplitN` -/

/-- One byte of a Go string. -/
abbrev Byte := Fin 256

/-- A Go `string`: an immutable sequence of bytes. -/
abbrev GoString := List Byte

/-- The byte of the separator ":" (0x3A). -/
def colon : Byte := 58

/-- The byte of the separator "/" (0x2F). -/
def slash : Byte := 47

/-- The bytes of an ASCII string literal (for ASCII the code point of a
character is its byte). -/
def ascii (s : String) : GoString :=
  s.toList.map (fun c => Fin.ofNat c.toNat)

/-- Go `strings.Index(s, sep)` for a one-byte `sep`: the position of the first
occurrence of `sep` in `s`; Go's `-1` is `none`. -/
def Index : GoString → Byte → Option Nat
  | [], _ => none
  | b :: rest, sep => if b = sep then some 0 else (Index rest sep).map (· + 1)

/-- Go `strings.Count(s, sep)` for a one-byte `sep`. -/
def Count (s : GoString) (sep : Byte) : Nat :=
  s.count sep

/-- The loop of Go `genSplit`
(`for i < n { m := Index(s, sep); if m < 0 { break }; a[i] = s[:m];
s = s[m+len(sep):]; i++ }; a[i] = s; return a[:i+1]`),
where the first argument is the number of iterations still allowed, `n - i`. -/
def splitLoop (sep : Byte) : Nat → GoString → List GoString
  | 0, s => [s]
  | k + 1, s =>
    match Index s sep with
    | none => [s]
    | some m => s.take m :: splitLoop sep k (s.drop (m + 1))

/-- Go `genSplit(s, sep, 0, n)` for a one-byte `sep`: `n == 0` gives `nil`,
`n < 0` means no limit (`n = Count(s, sep) + 1`), `n` is cut down to
`len(s) + 1`, and the loop runs at most `n - 1` times. -/
def genSplit (s : GoString) (sep : Byte) (n : Int) : List GoString :=
  if n = 0 then []
  else
    let n1 : Nat := if n < 0 then Count s sep + 1 else n.toNat
    let n2 : Nat := if n1 > s.length + 1 then s.length + 1 else n1
    splitLoop sep (n2 - 1) s

/-- Go `strings.SplitN(s, sep, n)`. -/
def SplitN (s : GoString) (sep : Byte) (n : Int) : List GoString :=
  genSplit s sep n

/-- Go `strings.Split(s, sep)`: the full split, `genSplit(s, sep, 0, -1)`. -/
def Split (s : GoString) (sep : Byte) : List GoString :=
  genSplit s sep (-1)

/-! ## The request model -/

/-- A Go `interface{}` holding values of type `Value`; `none` is the nil
interface. -/
abbrev Iface (Value : Type) := Option Value

/-- The struct `ChatUser`. -/
structure ChatUser (Value : Type) where
  ID : Iface Value
  Handle : GoString
  Provider : GoString

/-- The struct `CogUser`. -/
structure CogUser where
  ID : GoString
  Email : GoString
  FirstName : GoString
  LastName : GoString
  Username : GoString

/-- The struct `ChatRoom`. -/
structure ChatRoom where
  Name : GoString

/-- The struct `ExecutionRequest`: twelve wire fields and the three derived,
unexported fields `bundleName`, `commandName`, `pipelineID`. -/
structure ExecutionRequest (Value : Type) where
  Options : List (GoString × Iface Value)
  Args : List (Iface Value)
  CogEnv : Iface Value
  InvocationID : GoString
  InvocationStep : GoString
  Command : GoString
  ReplyTo : GoString
  Requestor : ChatUser Value
  User : CogUser
  Room : ChatRoom
  ServiceToken : GoString
  ServicesRoot : GoString
  bundleName : GoString
  commandName : GoString
  pipelineID : GoString

variable {Value : Type}

/-- The method `BundleName`. -/
def ExecutionRequest.BundleName (er : ExecutionRequest Value) : GoString :=
  er.bundleName

/-- The method `CommandName`. -/
def ExecutionRequest.CommandName (er : ExecutionRequest Value) : GoString :=
  er.commandName

/-- The method `PipelineID`. -/
def ExecutionRequest.PipelineID (er : ExecutionRequest Value) : GoString :=
  er.pipelineID

/-- The two slices that `Parse` indexes. -/
inductive Slice where
  | commandParts
  | pipelineParts
  deriving DecidableEq

/-- A Go run-time panic: `index out of range [index] with length length`,
raised by an index expression on the given slice. -/
inductive Panic where
  | indexOutOfRange (slice : Slice) (index : Nat) (length : Nat)
  deriving DecidableEq

/-- How a method with a pointer receiver ends: it returns, or it panics; in
both cases `er` is the receiver as the method left it. -/
inductive Outcome (α : Type) where
  | returned (er : α)
  | panicked (p : Panic) (er : α)

/-- The method `Parse`.  Each index expression is a checked access: out of
range it panics, and the assignments made before it stay. -/
def ExecutionRequest.Parse (er : ExecutionRequest Value) :
    Outcome (ExecutionRequest Value) :=
  let commandParts := SplitN er.Command colon 2
  let pipelineParts := SplitN er.ReplyTo slash 5
  match commandParts[0]? with
  | none => .panicked (.indexOutOfRange .commandParts 0 commandParts.length) er
  | some p0 =>
    let er1 := { er with bundleName := p0 }
    match commandParts[1]? with
    | none => .panicked (.indexOutOfRange .commandParts 1 commandParts.length) er1
    | some p1 =>
      let er2 := { er1 with commandName := p1 }
      match pipelineParts[3]? with
      | none => .panicked (.indexOutOfRange .pipelineParts 3 pipelineParts.length) er2
      | some p3 => .returned { er2 with pipelineID := p3 }

/-- The failure kinds that the specification gives to a failed decomposition. -/
inductive ErrorKind where
  | MalformedCommand
  | MalformedReplyAddress
  deriving DecidableEq

/-- The failure kind of a panic of `Parse`: a failed index into the parts of
`Command` is a malformed command, a failed index into the parts of `ReplyTo`
is a malformed reply address. -/
def Panic.kind : Panic → ErrorKind
  | .indexOutOfRange .commandParts _ _ => .MalformedCommand
  | .indexOutOfRange .pipelineParts _ _ => .MalformedReplyAddress

/-- A request with the given `Command` and `ReplyTo`, every other field at its
zero value (the derived fields unset). -/
def mkRequest (Value : Type) (command replyTo : GoString) : ExecutionRequest Value where
  Options := []
  Args := []
  CogEnv := none
  InvocationID := []
  InvocationStep := []
  Command := command
  ReplyTo := replyTo
  Requestor := { ID := none, Handle := [], Provider := [] }
  User := { ID := [], Email := [], FirstName := [], LastName := [], Username := [] }
  Room := { Name := [] }
  ServiceToken := []
  ServicesRoot := []
  bundleName := []
  commandName := []
  pipelineID := []

/-- The receiver as the method left it. -/
def Outcome.state {α : Type} : Outcome α → α
  | .returned er => er
  | .panicked _ er => er

/-- The panic with which a method ended, `none` when it returned. -/
def Outcome.panic? {α : Type} : Outcome α → Option Panic
  | .returned _ => none
  | .panicked p _ => some p

/-! ## Resolution against a bundle -/

/-- A Go `error` value, identified by its message. -/
structure GoError where
  message : GoString
  deriving DecidableEq

/-- The package variable `errorCommandNotFound`,
`errors.New("Command not found")`. -/
def errorCommandNotFound : GoError :=
  ⟨ascii "Command not found"⟩

/-- Modelled from the spec: `config.BundleCommand` is declared in package
`config`; each command exposes an `executable` reference and its
command-specific static configuration. -/
structure BundleCommand where
  Executable : GoString
  Env : List (GoString × GoString)
  deriving DecidableEq

/-- Modelled from the spec: `config.Bundle` is declared in package `config`; it
exposes a mapping from command name to command.  The Go map is an association
list read by its first matching key; a `none` value is a nil pointer. -/
structure Bundle where
  Commands : List (GoString × Option BundleCommand)

/-- Modelled from the spec: `config.Config` is declared in package `config`;
the process-wide static configuration values. -/
structure Config where
  Values : List (GoString × GoString)

/-- Modelled from the spec: `api.ExecRequest` is declared in the circuit
driver; the execution context is an executable reference, the merged
configuration and a standard-input payload.  A nil `Stdin` is `none`. -/
structure ExecRequest where
  Executable : Option GoString
  Env : List (GoString × GoString)
  Stdin : Option (List Byte)
  deriving DecidableEq

/-- The zero value `api.ExecRequest{}`. -/
def ExecRequest.zero : ExecRequest :=
  { Executable := none, Env := [], Stdin := none }

/-- The method `SetExecutable` of `api.ExecRequest`. -/
def ExecRequest.SetExecutable (r : ExecRequest) (name : GoString) : ExecRequest :=
  { r with Executable := some name }

/-- The Go map index `m[key]` on a map of pointers: the stored pointer, nil
when the key is absent. -/
def mapIndex (m : List (GoString × Option BundleCommand)) (key : GoString) :
    Option BundleCommand :=
  match m.lookup key with
  | some v => v
  | none => none

/-- The result pair `([]byte, error)` of `json.Marshal`. -/
abbrev MarshalResult := Option (List Byte) × Option GoError

/-- The type of the method `compileEnvironment`, which is defined in another
file of package `messages`: from the request, the command, the context under
construction, the relay configuration and the dynamic-configuration switch it
gives the context with its environment filled in and the flag it returns. -/
abbrev CompileEnvironment (Value : Type) :=
  ExecutionRequest Value → BundleCommand → ExecRequest → Config → Bool → ExecRequest × Bool

/-- The method `ToCircuitRequest`, returning the triple
`(*api.ExecRequest, bool, error)`.  `json.Marshal` and `compileEnvironment`
are parameters; the pointers `bundle` and `relayConfig` are valid (non-nil). -/
def ExecutionRequest.ToCircuitRequest (jsonMarshal : Value → MarshalResult)
    (compileEnvironment : CompileEnvironment Value)
    (er : ExecutionRequest Value) (bundle : Bundle) (relayConfig : Config)
    (useDynamicConfig : Bool) : Option ExecRequest × Bool × Option GoError :=
  let retval := ExecRequest.zero
  match mapIndex bundle.Commands er.CommandName with
  | none => (none, false, some errorCommandNotFound)
  | some command =>
    let compiled := compileEnvironment er command retval relayConfig useDynamicConfig
    let hasDynamicConfig := compiled.2
    let retval1 := compiled.1.SetExecutable command.Executable
    let retval2 :=
      match er.CogEnv with
      | some env => { retval1 with Stdin := (jsonMarshal env).1 }
      | none => retval1
    (some retval2, hasDynamicConfig, none)

/-! ## Sample data -/

/-- A small type of dynamic values: a boolean, which `json.Marshal` encodes,
and a channel, for which it returns an `UnsupportedTypeError`. -/
inductive SampleValue where
  | bool (b : Bool)
  | channel
  deriving DecidableEq

/-- What `json.Marshal` does on the sample values. -/
def sampleMarshal : SampleValue → MarshalResult
  | .bool true => (some (ascii "true"), none)
  | .bool false => (some (ascii "false"), none)
  | .channel => (none, some ⟨ascii "json: unsupported type: chan int"⟩)

/-- A stand-in for `compileEnvironment`: the environment of the command, and
the switch handed back as the flag. -/
def sampleCompileEnvironment : CompileEnvironment SampleValue :=
  fun _ command retval _ useDynamicConfig =>
    ({ retval with Env := command.Env }, useDynamicConfig)

/-- The reply address of the examples. -/
def sampleReplyTo : GoString :=
  ascii "a/b/c/pipe123/d"

/-- A bundle whose registry contains only the command "bar". -/
def sampleBundle : Bundle :=
  { Commands := [(ascii "bar", some { Executable := ascii "/bin/bar", Env := [] })] }

/-- An empty relay configuration. -/
def sampleConfig : Config :=
  { Values := [] }

/-- A request for the command "bar" whose `CogEnv` holds a channel, a value
that `json.Marshal` cannot encode. -/
def sampleChannelRequest : ExecutionRequest SampleValue :=
  { mkRequest SampleValue (ascii "git:bar") sampleReplyTo with CogEnv := some .channel }

/-! ## The response model and its JSON form

`encoding/json` is embedded at the level of the JSON object it writes and
reads: which fields of the struct appear, under which keys, and with which
values.  The value of a string field is the string that the written literal
denotes; the value of the `interface{}` field `Body` is kept as the JSON text
that `json.Marshal` produces for it, and read back by `json.Unmarshal`; both
are parameters. -/

/-- The struct `ExecutionResponse`. -/
structure ExecutionResponse (Value : Type) where
  Room : GoString
  Bundle : GoString
  Status : GoString
  StatusMessage : GoString
  Template : GoString
  Body : Iface Value
  IsJSON : Bool
  Aborted : Bool
  deriving DecidableEq

/-- The fields of `ExecutionResponse`. -/
inductive ResponseField where
  | Room
  | Bundle
  | Status
  | StatusMessage
  | Template
  | Body
  | IsJSON
  | Aborted
  deriving DecidableEq

/-- The fields of `ExecutionResponse` in the order of their declaration. -/
def ResponseField.all : List ResponseField :=
  [.Room, .Bundle, .Status, .StatusMessage, .Template, .Body, .IsJSON, .Aborted]

/-- The Go name of a field. -/
def ResponseField.goName : ResponseField → GoString
  | .Room => ascii "Room"
  | .Bundle => ascii "Bundle"
  | .Status => ascii "Status"
  | .StatusMessage => ascii "StatusMessage"
  | .Template => ascii "Template"
  | .Body => ascii "Body"
  | .IsJSON => ascii "IsJSON"
  | .Aborted => ascii "Aborted"

/-- The `json` struct tag of a field, as the source writes it. -/
def ResponseField.jsonTag : ResponseField → GoString
  | .Room => ascii "room"
  | .Bundle => ascii "bundle"
  | .Status => ascii "status"
  | .StatusMessage => ascii "status_message"
  | .Template => ascii "template,omitempty"
  | .Body => ascii "body"
  | .IsJSON => ascii "omit"
  | .Aborted => ascii "omit"

/-- The byte of "," (0x2C), which separates the name of a tag from its
options. -/
def comma : Byte := 44

/-- The name part of a struct tag (`parseTag` of `encoding/json`): the text
before the first ",". -/
def tagName (tag : GoString) : GoString :=
  match Index tag comma with
  | none => tag
  | some m => tag.take m

/-- The options part of a struct tag: the text after the first ",". -/
def tagOptions (tag : GoString) : GoString :=
  match Index tag comma with
  | none => []
  | some m => tag.drop (m + 1)

/-- The method `Contains` of `tagOptions`: whether the comma-separated
options contain `optionName`. -/
def optionsContain (options optionName : GoString) : Bool :=
  (Split options comma).contains optionName

/-- A field as `encoding/json` sees it: its key, whether the key comes from
the tag, and whether `omitempty` is set. -/
structure JsonField where
  field : ResponseField
  name : GoString
  tagged : Bool
  omitEmpty : Bool
  deriving DecidableEq

/-- The fields that `typeFields` of `encoding/json` collects before it
resolves name clashes: a field with the tag "-" is skipped, a field with an
empty tag name goes by its Go name.  (Every tag name of this struct is a valid
one, made of letters and "_".) -/
def candidateFields : List JsonField :=
  ResponseField.all.filterMap (fun f =>
    if f.jsonTag = ascii "-" then none
    else
      let name := tagName f.jsonTag
      some { field := f,
             name := if name = [] then f.goName else name,
             tagged := name ≠ [],
             omitEmpty := optionsContain (tagOptions f.jsonTag) (ascii "omitempty") })

/-- The rule `dominantField` of `encoding/json` for fields of one struct (all
at the same depth): among the fields with one name, a single tagged field
wins; without tagged fields a single field wins; in every other case all
fields of that name are dropped. -/
def isDominant (c : JsonField) : Bool :=
  let same := candidateFields.filter (fun d => d.name = c.name)
  let taggedSame := same.filter (fun d => d.tagged)
  if c.tagged then taggedSame.length = 1
  else taggedSame.length = 0 ∧ same.length = 1

/-- The fields that `encoding/json` encodes and decodes for
`ExecutionResponse`, in the order of declaration. -/
def typeFields : List JsonField :=
  candidateFields.filter isDominant

/-- The field that a key of a JSON object selects.  (Only the exact match is
embedded; the case-insensitive fallback of the decoder is never reached by
keys written by `Marshal`.) -/
def fieldByName (key : GoString) : Option JsonField :=
  typeFields.find? (fun f => f.name = key)

/-- Whether `b` lies in the byte range `lo..hi`. -/
def inRange (lo hi : Nat) (b : Byte) : Bool :=
  lo ≤ b.val && b.val ≤ hi

/-- Go `utf8.DecodeRuneInString` as the encoder of strings uses it, on a
non-empty string: `some size` for a well-formed UTF-8 sequence of `size` bytes
at the head, `none` for the result `(RuneError, 1)`. -/
def decodeRuneSize : GoString → Option Nat
  | [] => none
  | b0 :: rest =>
    if b0.val < 0x80 then some 1
    else if b0.val < 0xC2 then none
    else if b0.val ≤ 0xDF then
      match rest with
      | b1 :: _ => if inRange 0x80 0xBF b1 then some 2 else none
      | [] => none
    else if b0.val ≤ 0xEF then
      match rest with
      | b1 :: b2 :: _ =>
        if inRange (if b0.val = 0xE0 then 0xA0 else 0x80)
            (if b0.val = 0xED then 0x9F else 0xBF) b1 && inRange 0x80 0xBF b2
        then some 3 else none
      | _ => none
    else if b0.val ≤ 0xF4 then
      match rest with
      | b1 :: b2 :: b3 :: _ =>
        if inRange (if b0.val = 0xF0 then 0x90 else 0x80)
            (if b0.val = 0xF4 then 0x8F else 0xBF) b1 && inRange 0x80 0xBF b2
            && inRange 0x80 0xBF b3
        then some 4 else none
      | _ => none
    else none

/-- The UTF-8 encoding of U+FFFD, which a literal `\ufffd` denotes. -/
def replacementChar : GoString :=
  [0xEF, 0xBF, 0xBD]

/-- The string denoted by the JSON literal that the encoder writes for a
string: the loop of the encoder copies every well-formed sequence (escaped or
not) and writes `\ufffd` for every byte at which `DecodeRuneInString` gives
`(RuneError, 1)`.  The first argument counts the bytes of the current sequence
that are still to be copied. -/
def encodedStringFrom : Nat → GoString → GoString
  | _, [] => []
  | skip + 1, b :: rest => b :: encodedStringFrom skip rest
  | 0, b :: rest =>
    match decodeRuneSize (b :: rest) with
    | some size => b :: encodedStringFrom (size - 1) rest
    | none => replacementChar ++ encodedStringFrom 0 rest

/-- The string that a string field has after encoding and decoding. -/
def encodedString (s : GoString) : GoString :=
  encodedStringFrom 0 s

/-- Go `utf8.ValidString`, with the same counter as `encodedStringFrom`. -/
def validStringFrom : Nat → GoString → Bool
  | _, [] => true
  | skip + 1, _ :: rest => validStringFrom skip rest
  | 0, b :: rest =>
    match decodeRuneSize (b :: rest) with
    | some size => validStringFrom (size - 1) rest
    | none => false

/-- Go `utf8.ValidString`. -/
def ValidString (s : GoString) : Bool :=
  validStringFrom 0 s

/-- A value in a JSON object written for `ExecutionResponse`: a string, a
boolean, or the JSON text of the value of an `interface{}` field. -/
inductive JsonValue where
  | string (s : GoString)
  | bool (b : Bool)
  | raw (text : List Byte)
  deriving DecidableEq

/-- A JSON object: its members in order. -/
abbrev JsonObject := List (GoString × JsonValue)

/-- The zero value `ExecutionResponse{}`. -/
def ExecutionResponse.zero (Value : Type) : ExecutionResponse Value :=
  { Room := [], Bundle := [], Status := [], StatusMessage := [], Template := [],
    Body := none, IsJSON := false, Aborted := false }

/-- The JSON text of an `interface{}` value: `null` for the nil interface,
otherwise what `json.Marshal` gives for the value it holds. -/
def encodeBody (jsonMarshal : Value → MarshalResult) : Iface Value → MarshalResult
  | none => (some (ascii "null"), none)
  | some v => jsonMarshal v

/-- The test `isEmptyValue` of `encoding/json` on a field of the response. -/
def ExecutionResponse.isEmptyValue (r : ExecutionResponse Value) : ResponseField → Bool
  | .Room => r.Room.isEmpty
  | .Bundle => r.Bundle.isEmpty
  | .Status => r.Status.isEmpty
  | .StatusMessage => r.StatusMessage.isEmpty
  | .Template => r.Template.isEmpty
  | .Body => r.Body.isNone
  | .IsJSON => !r.IsJSON
  | .Aborted => !r.Aborted

/-- The JSON value written for a field of the response. -/
def ExecutionResponse.encodeField (jsonMarshal : Value → MarshalResult)
    (r : ExecutionResponse Value) : ResponseField → Except GoError JsonValue
  | .Room => .ok (.string (encodedString r.Room))
  | .Bundle => .ok (.string (encodedString r.Bundle))
  | .Status => .ok (.string (encodedString r.Status))
  | .StatusMessage => .ok (.string (encodedString r.StatusMessage))
  | .Template => .ok (.string (encodedString r.Template))
  | .Body =>
    match encodeBody jsonMarshal r.Body with
    | (_, some e) => .error e
    | (text, none) => .ok (.raw (text.getD []))
  | .IsJSON => .ok (.bool r.IsJSON)
  | .Aborted => .ok (.bool r.Aborted)

/-- The struct encoder: one member for each field of the list, in order,
except that an `omitempty` field with an empty value is left out; the first
error ends the encoding. -/
def ExecutionResponse.marshalFields (jsonMarshal : Value → MarshalResult)
    (r : ExecutionResponse Value) : List JsonField → Except GoError JsonObject
  | [] => .ok []
  | f :: rest =>
    if f.omitEmpty && r.isEmptyValue f.field then r.marshalFields jsonMarshal rest
    else
      match r.encodeField jsonMarshal f.field with
      | .error e => .error e
      | .ok v =>
        match r.marshalFields jsonMarshal rest with
        | .error e => .error e
        | .ok obj => .ok ((f.name, v) :: obj)

/-- `json.Marshal` on an `ExecutionResponse`. -/
def ExecutionResponse.Marshal (jsonMarshal : Value → MarshalResult)
    (r : ExecutionResponse Value) : Except GoError JsonObject :=
  r.marshalFields jsonMarshal typeFields

/-- The `UnmarshalTypeError` of the decoder for a member whose value does not
fit the field.  Go's message also names the JSON value and the field; a single
value stands for all of them. -/
def errorUnmarshalType : GoError :=
  ⟨ascii "json: cannot unmarshal value into Go struct field"⟩

/-- The decoder storing the value of a member into a field of the response. -/
def ExecutionResponse.setField (jsonUnmarshal : List Byte → Iface Value × Option GoError)
    (r : ExecutionResponse Value) :
    ResponseField → JsonValue → Except GoError (ExecutionResponse Value)
  | .Room, .string s => .ok { r with Room := s }
  | .Bundle, .string s => .ok { r with Bundle := s }
  | .Status, .string s => .ok { r with Status := s }
  | .StatusMessage, .string s => .ok { r with StatusMessage := s }
  | .Template, .string s => .ok { r with Template := s }
  | .Body, .raw text =>
    match jsonUnmarshal text with
    | (_, some e) => .error e
    | (v, none) => .ok { r with Body := v }
  | .IsJSON, .bool b => .ok { r with IsJSON := b }
  | .Aborted, .bool b => .ok { r with Aborted := b }
  | _, _ => .error errorUnmarshalType

/-- `json.Unmarshal` of a JSON object into `target`: every member whose key
selects a field is stored into it, other members are skipped; the first error
is kept and decoding goes on. -/
def ExecutionResponse.Unmarshal (jsonUnmarshal : List Byte → Iface Value × Option GoError)
    (obj : JsonObject) (target : ExecutionResponse Value) :
    ExecutionResponse Value × Option GoError :=
  obj.foldl (fun acc member =>
    match fieldByName member.1 with
    | none => acc
    | some f =>
      match acc.1.setField jsonUnmarshal f.field member.2 with
      | .ok r => (r, acc.2)
      | .error e =>
        (acc.1, match acc.2 with
          | none => some e
          | some first => some first)) (target, none)

/-- What `json.Unmarshal` into an `interface{}` does on the JSON texts `null`,
`true` and `false`. -/
def sampleUnmarshal (text : List Byte) : Iface SampleValue × Option GoError :=
  if text = ascii "null" then (none, none)
  else if text = ascii "true" then (some (.bool true), none)
  else if text = ascii "false" then (some (.bool false), none)
  else (none, some ⟨ascii "json: unexpected input"⟩)

/-- A response with a template and a boolean body, with both flags set. -/
def sampleResponse : ExecutionResponse SampleValue :=
  { Room := ascii "general", Bundle := ascii "git", Status := ascii "ok",
    StatusMessage := ascii "done", Template := ascii "commit",
    Body := some (.bool true), IsJSON := true, Aborted := true }

/-- The sample response with a room name that is not valid UTF-8 (the single
byte 0xFF) and a nil body. -/
def sampleBadRoomResponse : ExecutionResponse SampleValue :=
  { sampleResponse with Room := [0xFF], Body := none }

/-- The sample response with a channel as its body. -/
def sampleChannelResponse : ExecutionResponse SampleValue :=
  { sampleResponse with Body := some .channel }

/-! ## Facts about `Index`, `Count` and the split loop -/

theorem Index_eq_none_iff (s : GoString) (sep : Byte) :
    Index s sep = none ↔ sep ∉ s := by
  induction s with
  | nil => simp [Index]
  | cons b rest ih =>
    by_cases hb : b = sep
    · simp [Index, hb]
    · have hb2 : ¬ sep = b := fun h => hb h.symm
      simp [Index, hb, hb2, ih]

theorem Index_some_spec (sep : Byte) :
    ∀ (s : GoString) (m : Nat), Index s sep = some m →
      s = s.take m ++ sep :: s.drop (m + 1) ∧ sep ∉ s.take m := by
  intro s
  induction s with
  | nil => intro m h; simp [Index] at h
  | cons b rest ih =>
    intro m h
    by_cases hb : b = sep
    · simp [Index, hb] at h
      subst h
      simp [hb]
    · cases hI : Index rest sep with
      | none => simp [Index, hb, hI] at h
      | some m0 =>
      simp only [Index, hb, if_false, hI] at h
      have h3 : m0 + 1 = m := by simpa using h
      subst h3
      obtain ⟨h1, h2⟩ := ih m0 hI
      have hb2 : ¬ sep = b := fun h => hb h.symm
      refine ⟨?_, ?_⟩
      · simp only [List.take_succ_cons, List.drop_succ_cons, List.cons_append]
        rw [← h1]
      · simp [List.take_succ_cons, hb2, h2]

theorem Index_append_cons (sep : Byte) (c : GoString) :
    ∀ (b : GoString), sep ∉ b → Index (b ++ sep :: c) sep = some b.length := by
  intro b
  induction b with
  | nil => intro _; simp [Index]
  | cons x rest ih =>
    intro h
    have hx : ¬ x = sep := fun e => h (by simp [e])
    have hr : sep ∉ rest := fun e => h (List.mem_cons_of_mem _ e)
    simp [Index, hx, ih hr]

theorem Count_le_length (s : GoString) (sep : Byte) : Count s sep ≤ s.length :=
  List.count_le_length sep s

theorem Count_eq_zero_iff (s : GoString) (sep : Byte) : Count s sep = 0 ↔ sep ∉ s := by
  simp [Count, List.count_eq_zero]

theorem Count_of_Index_some (s : GoString) (sep : Byte) (m : Nat)
    (h : Index s sep = some m) : Count s sep = Count (s.drop (m + 1)) sep + 1 := by
  obtain ⟨h1, h2⟩ := Index_some_spec sep s m h
  have h3 : List.count sep (s.take m) = 0 := List.count_eq_zero.mpr h2
  unfold Count
  conv_lhs => rw [h1]
  simp [List.count_append, h3]

theorem splitLoop_length (sep : Byte) :
    ∀ (k : Nat) (s : GoString), (splitLoop sep k s).length = min k (Count s sep) + 1 := by
  intro k
  induction k with
  | zero => intro s; simp [splitLoop]
  | succ k ih =>
    intro s
    cases h : Index s sep with
    | none =>
      have h0 : Count s sep = 0 := (Count_eq_zero_iff s sep).mpr ((Index_eq_none_iff s sep).mp h)
      simp [splitLoop, h, h0]
    | some m =>
      have hc := Count_of_Index_some s sep m h
      simp only [splitLoop, h, List.length_cons, ih, hc]
      omega

/-- Once the limit reaches the number of separators it no longer matters. -/
theorem splitLoop_of_Count_le (sep : Byte) :
    ∀ (k : Nat) (s : GoString), Count s sep ≤ k →
      splitLoop sep k s = splitLoop sep (Count s sep) s := by
  intro k
  induction k with
  | zero =>
    intro s h
    have h0 : Count s sep = 0 := by omega
    rw [h0]
  | succ k ih =>
    intro s hk
    cases h : Index s sep with
    | none =>
      have h0 : Count s sep = 0 := (Count_eq_zero_iff s sep).mpr ((Index_eq_none_iff s sep).mp h)
      simp [splitLoop, h, h0]
    | some m =>
      have hc := Count_of_Index_some s sep m h
      rw [hc]
      simp only [splitLoop, h]
      rw [ih (s.drop (m + 1)) (by omega)]

/-- Below both limits two runs of the loop produce the same parts. -/
theorem splitLoop_getElem?_of_lt (sep : Byte) :
    ∀ (i k k2 : Nat) (s : GoString), i < k → i < k2 →
      (splitLoop sep k s)[i]? = (splitLoop sep k2 s)[i]? := by
  intro i
  induction i with
  | zero =>
    intro k k2 s hk hk2
    obtain ⟨a, rfl⟩ : ∃ a, k = a + 1 := ⟨k - 1, by omega⟩
    obtain ⟨b, rfl⟩ : ∃ b, k2 = b + 1 := ⟨k2 - 1, by omega⟩
    cases h : Index s sep <;> simp [splitLoop, h]
  | succ i ih =>
    intro k k2 s hk hk2
    obtain ⟨a, rfl⟩ : ∃ a, k = a + 1 := ⟨k - 1, by omega⟩
    obtain ⟨b, rfl⟩ : ∃ b, k2 = b + 1 := ⟨k2 - 1, by omega⟩
    cases h : Index s sep with
    | none => simp [splitLoop, h]
    | some m =>
      simp only [splitLoop, h, List.getElem?_cons_succ]
      exact ih a b _ (by omega) (by omega)

/-- For a positive limit `genSplit` is the loop run `n - 1` times: cutting the
limit down to `len(s) + 1` does not change the result. -/
theorem genSplit_pos (s : GoString) (sep : Byte) (n : Nat) (hn : 0 < n) :
    genSplit s sep (n : Int) = splitLoop sep (n - 1) s := by
  have h0 : ¬ ((n : Int) = 0) := by omega
  have h1 : ¬ ((n : Int) < 0) := by omega
  simp only [genSplit, h0, h1, if_false, Int.toNat_ofNat]
  by_cases hlen : n > s.length + 1
  · simp only [hlen, if_true, Nat.add_sub_cancel]
    have hc := Count_le_length s sep
    rw [splitLoop_of_Count_le sep s.length s hc,
      splitLoop_of_Count_le sep (n - 1) s (by omega)]
  · simp only [hlen, if_false]

/-- The full split runs the loop once for every separator. -/
theorem Split_eq (s : GoString) (sep : Byte) :
    Split s sep = splitLoop sep (Count s sep) s := by
  have hc := Count_le_length s sep
  have h0 : ¬ ((-1 : Int) = 0) := by omega
  have h1 : (-1 : Int) < 0 := by omega
  have h2 : ¬ (Count s sep + 1 > s.length + 1) := by omega
  simp only [Split, genSplit, h0, h1, h2, if_false, if_true, Nat.add_sub_cancel]

theorem Split_length (s : GoString) (sep : Byte) :
    (Split s sep).length = Count s sep + 1 := by
  rw [Split_eq, splitLoop_length]
  simp

theorem SplitN_two (s : GoString) (sep : Byte) :
    SplitN s sep 2 = splitLoop sep 1 s := by
  have h := genSplit_pos s sep 2 (by decide)
  simpa [SplitN] using h

theorem SplitN_five (s : GoString) (sep : Byte) :
    SplitN s sep 5 = splitLoop sep 4 s := by
  have h := genSplit_pos s sep 5 (by decide)
  simpa [SplitN] using h

theorem SplitN_five_length (s : GoString) (sep : Byte) :
    (SplitN s sep 5).length = min 4 (Count s sep) + 1 := by
  rw [SplitN_five, splitLoop_length]

/-- The first four parts of `SplitN(s, sep, 5)` are the first four parts of
the full split. -/
theorem SplitN_five_getElem? (s : GoString) (sep : Byte) (i : Nat) (hi : i < 4) :
    (SplitN s sep 5)[i]? = (Split s sep)[i]? := by
  rw [SplitN_five, Split_eq]
  by_cases hc : Count s sep ≤ 4
  · rw [splitLoop_of_Count_le sep 4 s hc]
  · exact splitLoop_getElem?_of_lt sep i 4 (Count s sep) s hi (by omega)

/-! ## Facts about `Parse` -/

/-- Without a ":" in `Command`, `Parse` stores the whole of `Command` as the
bundle name and panics at `commandParts[1]`. -/
theorem Parse_of_Index_none (er : ExecutionRequest Value)
    (h : Index er.Command colon = none) :
    er.Parse = .panicked (.indexOutOfRange .commandParts 1 1)
      { er with bundleName := er.Command } := by
  simp [ExecutionRequest.Parse, SplitN_two, splitLoop, h]

/-- With the first ":" of `Command` at position `m`, `Parse` gets as far as
the index into the parts of `ReplyTo`. -/
theorem Parse_of_Index_some (er : ExecutionRequest Value) (m : Nat)
    (h : Index er.Command colon = some m) :
    er.Parse =
      match (SplitN er.ReplyTo slash 5)[3]? with
      | none => .panicked
          (.indexOutOfRange .pipelineParts 3 (SplitN er.ReplyTo slash 5).length)
          { er with bundleName := er.Command.take m,
                    commandName := er.Command.drop (m + 1) }
      | some p3 => .returned
          { er with bundleName := er.Command.take m,
                    commandName := er.Command.drop (m + 1),
                    pipelineID := p3 } := by
  simp only [ExecutionRequest.Parse, SplitN_two, splitLoop, h]
  rfl

/-- A ":" in `Command` and four segments in `ReplyTo` make `Parse` return, and
say what it stores. -/
theorem Parse_wellFormed (er : ExecutionRequest Value)
    (hc : colon ∈ er.Command) (hr : 4 ≤ (Split er.ReplyTo slash).length) :
    ∃ (m : Nat) (p3 : GoString),
      Index er.Command colon = some m ∧
      (SplitN er.ReplyTo slash 5)[3]? = some p3 ∧
      (Split er.ReplyTo slash)[3]? = some p3 ∧
      er.Parse = .returned
        { er with bundleName := er.Command.take m,
                  commandName := er.Command.drop (m + 1),
                  pipelineID := p3 } := by
  cases hI : Index er.Command colon with
  | none => exact absurd hc ((Index_eq_none_iff _ _).mp hI)
  | some m =>
    have h3 : 3 < (Split er.ReplyTo slash).length := by omega
    have hs : (Split er.ReplyTo slash)[3]? = some ((Split er.ReplyTo slash)[3]) :=
      List.getElem?_eq_getElem h3
    have hn : (SplitN er.ReplyTo slash 5)[3]? = some ((Split er.ReplyTo slash)[3]) := by
      rw [SplitN_five_getElem? _ _ 3 (by decide), hs]
    refine ⟨m, (Split er.ReplyTo slash)[3], rfl, hn, hs, ?_⟩
    rw [Parse_of_Index_some er m hI, hn]

/-- Whenever `Parse` returns, `Command` has a first ":" and `ReplyTo` a fourth
part, and these are what has been stored. -/
theorem Parse_returned_inv (er er2 : ExecutionRequest Value)
    (h : er.Parse = .returned er2) :
    ∃ (m : Nat) (p3 : GoString),
      Index er.Command colon = some m ∧
      (SplitN er.ReplyTo slash 5)[3]? = some p3 ∧
      er2 = { er with bundleName := er.Command.take m,
                      commandName := er.Command.drop (m + 1),
                      pipelineID := p3 } := by
  cases hI : Index er.Command colon with
  | none => rw [Parse_of_Index_none er hI] at h; cases h
  | some m =>
    rw [Parse_of_Index_some er m hI] at h
    cases hp : (SplitN er.ReplyTo slash 5)[3]? with
    | none => rw [hp] at h; cases h
    | some p3 =>
      rw [hp] at h
      refine ⟨m, p3, rfl, rfl, ?_⟩
      cases h
      rfl

/-! ## Decomposition: what `Parse` stores -/

/-- C1, as the claim states it, fails: the bundle part "a:b" itself contains a
":", and `Parse` cuts `Command = "a:b:c"` at the first ":", giving
`BundleName() = "a"` and `CommandName() = "b:c"` rather than "a:b" and "c". -/
theorem C1_counterexample :
    ascii "a:b" ≠ [] ∧ ascii "c" ≠ [] ∧
    4 ≤ (Split sampleReplyTo slash).length ∧
    (mkRequest SampleValue (ascii "a:b" ++ [colon] ++ ascii "c") sampleReplyTo).Parse.panic?
      = none ∧
    (mkRequest SampleValue (ascii "a:b" ++ [colon] ++ ascii "c")
      sampleReplyTo).Parse.state.BundleName = ascii "a" ∧
    (mkRequest SampleValue (ascii "a:b" ++ [colon] ++ ascii "c")
      sampleReplyTo).Parse.state.CommandName = ascii "b:c" ∧
    (mkRequest SampleValue (ascii "a:b" ++ [colon] ++ ascii "c")
      sampleReplyTo).Parse.state.BundleName ≠ ascii "a:b" ∧
    (mkRequest SampleValue (ascii "a:b" ++ [colon] ++ ascii "c")
      sampleReplyTo).Parse.state.CommandName ≠ ascii "c" := by
  decide

/-- C1 (amended): when `Command` is `b ++ ":" ++ c` with `b` and `c` non-empty
and `b` free of ":", and `ReplyTo` has at least four "/"-delimited segments,
`Parse` returns and afterwards `BundleName() = b` and `CommandName() = c`. -/
theorem C1_Parse_bundle_and_command (er : ExecutionRequest Value) (b c : GoString)
    (_hb : b ≠ []) (_hc : c ≠ []) (hfree : colon ∉ b)
    (hcmd : er.Command = b ++ [colon] ++ c)
    (hr : 4 ≤ (Split er.ReplyTo slash).length) :
    ∃ er2, er.Parse = .returned er2 ∧ er2.BundleName = b ∧ er2.CommandName = c := by
  have hcmd2 : er.Command = b ++ colon :: c := by simp [hcmd]
  have hin : colon ∈ er.Command := by simp [hcmd2]
  obtain ⟨m, p3, hI, _, _, hP⟩ := Parse_wellFormed er hin hr
  have hm : m = b.length := by
    have h1 := Index_append_cons colon c b hfree
    rw [← hcmd2, hI] at h1
    exact Option.some.inj h1
  refine ⟨_, hP, ?_, ?_⟩
  · simp [ExecutionRequest.BundleName, hm, hcmd2]
  · simp [ExecutionRequest.CommandName, hm, hcmd2]

/-- C1 (amended) at `Command = "git:commit"`, `ReplyTo = "a/b/c/pipe123/d"`. -/
theorem C1_Parse_bundle_and_command_witness :
    ∃ er2, (mkRequest SampleValue (ascii "git:commit") sampleReplyTo).Parse = .returned er2 ∧
      er2.BundleName = ascii "git" ∧ er2.CommandName = ascii "commit" :=
  C1_Parse_bundle_and_command (mkRequest SampleValue (ascii "git:commit") sampleReplyTo)
    (ascii "git") (ascii "commit") (by decide) (by decide) (by decide) (by decide) (by decide)

/-- C2: whenever `Parse` returns, `BundleName()` contains no ":" and
`BundleName() ++ ":" ++ CommandName()` is `Command` again (before and after
`Parse`), so `Command` has been cut at its first ":" and nothing is lost. -/
theorem C2_Parse_first_colon_lossless (er er2 : ExecutionRequest Value)
    (h : er.Parse = .returned er2) :
    colon ∉ er2.BundleName ∧
    er2.BundleName ++ [colon] ++ er2.CommandName = er2.Command ∧
    er2.Command = er.Command := by
  obtain ⟨m, p3, hI, _, rfl⟩ := Parse_returned_inv er er2 h
  obtain ⟨h1, h2⟩ := Index_some_spec colon er.Command m hI
  refine ⟨h2, ?_, rfl⟩
  simp only [ExecutionRequest.BundleName, ExecutionRequest.CommandName,
    List.append_assoc, List.singleton_append]
  exact h1.symm

/-- C2 at `Command = "a:b:c"`: the later ":" stays inside `CommandName()`. -/
theorem C2_Parse_first_colon_lossless_witness :
    colon ∉ (mkRequest SampleValue (ascii "a:b:c") sampleReplyTo).Parse.state.BundleName ∧
    (mkRequest SampleValue (ascii "a:b:c") sampleReplyTo).Parse.state.BundleName ++ [colon] ++
      (mkRequest SampleValue (ascii "a:b:c") sampleReplyTo).Parse.state.CommandName =
      (mkRequest SampleValue (ascii "a:b:c") sampleReplyTo).Parse.state.Command ∧
    (mkRequest SampleValue (ascii "a:b:c") sampleReplyTo).Parse.state.Command = ascii "a:b:c" :=
  C2_Parse_first_colon_lossless (mkRequest SampleValue (ascii "a:b:c") sampleReplyTo)
    (mkRequest SampleValue (ascii "a:b:c") sampleReplyTo).Parse.state rfl

/-- C3: when `Command` contains ":" and `ReplyTo` has at least four
"/"-delimited segments, `Parse` returns and `PipelineID()` is the element at
index 3 of the full split of `ReplyTo` on "/". -/
theorem C3_Parse_pipeline_id (er : ExecutionRequest Value)
    (hc : colon ∈ er.Command) (hr : 4 ≤ (Split er.ReplyTo slash).length) :
    ∃ er2, er.Parse = .returned er2 ∧
      (Split er.ReplyTo slash)[3]? = some er2.PipelineID := by
  obtain ⟨m, p3, _, _, hS, hP⟩ := Parse_wellFormed er hc hr
  exact ⟨_, hP, hS⟩

/-- C3 at `ReplyTo = "a/b/c/pipe123/d"`: the pipeline id is "pipe123". -/
theorem C3_Parse_pipeline_id_witness :
    (Split sampleReplyTo slash)[3]? = some (ascii "pipe123") ∧
    ∃ er2, (mkRequest SampleValue (ascii "git:commit") sampleReplyTo).Parse = .returned er2 ∧
      (Split sampleReplyTo slash)[3]? = some er2.PipelineID :=
  ⟨by decide,
   C3_Parse_pipeline_id (mkRequest SampleValue (ascii "git:commit") sampleReplyTo)
    (by decide) (by decide)⟩

/-! ## Decomposition: how `Parse` fails -/

/-- C4: when `Command` contains no ":", `Parse` panics at `commandParts[1]`
(index 1 out of range of a slice of length 1), the failure kind is
`MalformedCommand`, and `Parse` does not return. -/
theorem C4_Parse_malformed_command (er : ExecutionRequest Value)
    (h : colon ∉ er.Command) :
    (∃ p er2, er.Parse = .panicked p er2 ∧
      p = .indexOutOfRange .commandParts 1 1 ∧ p.kind = .MalformedCommand) ∧
    ∀ er3, er.Parse ≠ .returned er3 := by
  have hP := Parse_of_Index_none er ((Index_eq_none_iff _ _).mpr h)
  refine ⟨⟨_, _, hP, rfl, rfl⟩, ?_⟩
  intro er3 h3
  rw [hP] at h3
  cases h3

/-- C4 at the empty `Command`. -/
theorem C4_Parse_malformed_command_witness :
    (∃ p er2, (mkRequest SampleValue (ascii "") sampleReplyTo).Parse = .panicked p er2 ∧
      p = .indexOutOfRange .commandParts 1 1 ∧ p.kind = .MalformedCommand) ∧
    ∀ er3, (mkRequest SampleValue (ascii "") sampleReplyTo).Parse ≠ .returned er3 :=
  C4_Parse_malformed_command (mkRequest SampleValue (ascii "") sampleReplyTo) (by decide)

/-- C5, as the claim states it, fails: with `Command = "gitcommit"` (no ":")
and `ReplyTo = "a/b"` (two segments), `Parse` panics at `commandParts[1]`,
before it reaches the index into the parts of `ReplyTo`; the failure kind is
`MalformedCommand`, not `MalformedReplyAddress`. -/
theorem C5_counterexample :
    (Split (ascii "a/b") slash).length < 4 ∧
    (mkRequest SampleValue (ascii "gitcommit") (ascii "a/b")).Parse.panic?
      = some (.indexOutOfRange .commandParts 1 1) ∧
    (Panic.indexOutOfRange .commandParts 1 1).kind = .MalformedCommand ∧
    (Panic.indexOutOfRange .commandParts 1 1).kind ≠ .MalformedReplyAddress := by
  decide

/-- C5 (amended): when `ReplyTo` has fewer than four "/"-delimited segments
and `Command` contains ":", `Parse` panics at `pipelineParts[3]` (index 3 out
of range of the parts of `ReplyTo`), and the failure kind is
`MalformedReplyAddress`. -/
theorem C5_Parse_malformed_reply_address (er : ExecutionRequest Value)
    (hc : colon ∈ er.Command) (hr : (Split er.ReplyTo slash).length < 4) :
    ∃ p er2, er.Parse = .panicked p er2 ∧
      p = .indexOutOfRange .pipelineParts 3 (Split er.ReplyTo slash).length ∧
      p.kind = .MalformedReplyAddress := by
  cases hI : Index er.Command colon with
  | none => exact absurd hc ((Index_eq_none_iff _ _).mp hI)
  | some m =>
    have hlen : (SplitN er.ReplyTo slash 5).length = (Split er.ReplyTo slash).length := by
      rw [SplitN_five_length, Split_length]
      rw [Split_length] at hr
      omega
    have hnone : (SplitN er.ReplyTo slash 5)[3]? = none := by
      apply List.getElem?_eq_none
      omega
    refine ⟨.indexOutOfRange .pipelineParts 3 (Split er.ReplyTo slash).length,
      { er with bundleName := er.Command.take m, commandName := er.Command.drop (m + 1) },
      ?_, rfl, rfl⟩
    rw [Parse_of_Index_some er m hI, hnone, hlen]

/-- C5 (amended) at `Command = "git:commit"` and the empty `ReplyTo`. -/
theorem C5_Parse_malformed_reply_address_witness :
    ∃ p er2, (mkRequest SampleValue (ascii "git:commit") (ascii "")).Parse = .panicked p er2 ∧
      p = .indexOutOfRange .pipelineParts 3
        (Split (mkRequest SampleValue (ascii "git:commit") (ascii "")).ReplyTo slash).length ∧
      p.kind = .MalformedReplyAddress :=
  C5_Parse_malformed_reply_address (mkRequest SampleValue (ascii "git:commit") (ascii ""))
    (by decide) (by decide)

/-! ## Resolution: the failure paths of `ToCircuitRequest` -/

/-- C6: when the registry of the bundle has no entry for `CommandName()`,
`ToCircuitRequest` returns exactly `(nil, false, errorCommandNotFound)`,
whatever `relayConfig` and `useDynamicConfig` are; and whenever
`ToCircuitRequest` returns a non-nil error, the context it returns is nil and
the flag is false. -/
theorem C6_ToCircuitRequest_command_not_found (jsonMarshal : Value → MarshalResult)
    (compileEnvironment : CompileEnvironment Value)
    (er : ExecutionRequest Value) (bundle : Bundle) (relayConfig : Config)
    (useDynamicConfig : Bool)
    (h : bundle.Commands.lookup er.CommandName = none) :
    er.ToCircuitRequest jsonMarshal compileEnvironment bundle relayConfig useDynamicConfig
      = (none, false, some errorCommandNotFound) ∧
    ∀ (er2 : ExecutionRequest Value) (bundle2 : Bundle) (relayConfig2 : Config)
      (useDynamicConfig2 : Bool),
      (er2.ToCircuitRequest jsonMarshal compileEnvironment bundle2 relayConfig2
        useDynamicConfig2).2.2 ≠ none →
      (er2.ToCircuitRequest jsonMarshal compileEnvironment bundle2 relayConfig2
        useDynamicConfig2).1 = none ∧
      (er2.ToCircuitRequest jsonMarshal compileEnvironment bundle2 relayConfig2
        useDynamicConfig2).2.1 = false := by
  constructor
  · simp [ExecutionRequest.ToCircuitRequest, mapIndex, h]
  · intro er2 bundle2 relayConfig2 useDynamicConfig2
    unfold ExecutionRequest.ToCircuitRequest
    cases mapIndex bundle2.Commands er2.CommandName <;> simp

/-- C6 at `Command = "nosuchbundle:foo"` after `Parse`, against a registry
that contains only "bar". -/
theorem C6_ToCircuitRequest_command_not_found_witness :
    (mkRequest SampleValue (ascii "nosuchbundle:foo") sampleReplyTo).Parse.state.CommandName
      = ascii "foo" ∧
    (mkRequest SampleValue (ascii "nosuchbundle:foo")
      sampleReplyTo).Parse.state.ToCircuitRequest sampleMarshal sampleCompileEnvironment
      sampleBundle sampleConfig true = (none, false, some errorCommandNotFound) :=
  ⟨by decide,
   (C6_ToCircuitRequest_command_not_found sampleMarshal sampleCompileEnvironment
    (mkRequest SampleValue (ascii "nosuchbundle:foo") sampleReplyTo).Parse.state
    sampleBundle sampleConfig true (by decide)).1⟩

/-- C7, as the claim states it, fails: `CogEnv` holds a channel, which
`json.Marshal` rejects with an error, the command "bar" is in the bundle, and
`ToCircuitRequest` returns a context (with nil `Stdin`) and a nil error. -/
theorem C7_counterexample :
    sampleChannelRequest.Parse.state.CogEnv = some SampleValue.channel ∧
    (sampleMarshal SampleValue.channel).2 ≠ none ∧
    sampleChannelRequest.Parse.state.CommandName = ascii "bar" ∧
    sampleChannelRequest.Parse.state.ToCircuitRequest sampleMarshal sampleCompileEnvironment
      sampleBundle sampleConfig false
      = (some { Executable := some (ascii "/bin/bar"), Env := [], Stdin := none },
         false, none) := by
  decide

/-- C7 (amended): when `CogEnv` is present but `json.Marshal` returns an error
for it, and the command is found in the bundle, `ToCircuitRequest` does not
fail: the error of `json.Marshal` is discarded, the result is a non-nil context
with the executable of the command bound and `Stdin` set to the byte slice
that `json.Marshal` returned beside its error, the flag of
`compileEnvironment`, and a nil error. -/
theorem C7_ToCircuitRequest_marshal_error_discarded (jsonMarshal : Value → MarshalResult)
    (compileEnvironment : CompileEnvironment Value)
    (er : ExecutionRequest Value) (bundle : Bundle) (relayConfig : Config)
    (useDynamicConfig : Bool) (env : Value) (command : BundleCommand)
    (henv : er.CogEnv = some env) (_herr : (jsonMarshal env).2 ≠ none)
    (hfound : mapIndex bundle.Commands er.CommandName = some command) :
    ∃ retval,
      er.ToCircuitRequest jsonMarshal compileEnvironment bundle relayConfig useDynamicConfig
        = (some retval,
           (compileEnvironment er command ExecRequest.zero relayConfig useDynamicConfig).2,
           none) ∧
      retval.Stdin = (jsonMarshal env).1 ∧
      retval.Executable = some command.Executable := by
  refine ⟨{ (compileEnvironment er command ExecRequest.zero relayConfig
      useDynamicConfig).1.SetExecutable command.Executable with
      Stdin := (jsonMarshal env).1 }, ?_, rfl, rfl⟩
  simp only [ExecutionRequest.ToCircuitRequest, hfound, henv]

/-- C7 (amended) at a request whose `CogEnv` holds a channel. -/
theorem C7_ToCircuitRequest_marshal_error_discarded_witness :
    ∃ retval,
      sampleChannelRequest.Parse.state.ToCircuitRequest sampleMarshal sampleCompileEnvironment
        sampleBundle sampleConfig true
        = (some retval,
           (sampleCompileEnvironment sampleChannelRequest.Parse.state
             { Executable := ascii "/bin/bar", Env := [] } ExecRequest.zero sampleConfig true).2,
           none) ∧
      retval.Stdin = (sampleMarshal SampleValue.channel).1 ∧
      retval.Executable = some (ascii "/bin/bar") :=
  C7_ToCircuitRequest_marshal_error_discarded sampleMarshal sampleCompileEnvironment
    sampleChannelRequest.Parse.state sampleBundle sampleConfig true SampleValue.channel
    { Executable := ascii "/bin/bar", Env := [] } (by decide) (by decide) (by decide)

/-! ## Decomposition: safety, idempotence and frame -/

/-- C8: when `Command` contains ":" and `ReplyTo` has at least four
"/"-delimited segments, the index expressions `commandParts[1]` and
`pipelineParts[3]` are in range, `Parse` returns, and the three derived fields
hold `commandParts[0]`, `commandParts[1]` and `pipelineParts[3]`. -/
theorem C8_Parse_cannot_fail (er : ExecutionRequest Value)
    (hc : colon ∈ er.Command) (hr : 4 ≤ (Split er.ReplyTo slash).length) :
    1 < (SplitN er.Command colon 2).length ∧
    3 < (SplitN er.ReplyTo slash 5).length ∧
    ∃ er2, er.Parse = .returned er2 ∧
      (SplitN er.Command colon 2)[0]? = some er2.bundleName ∧
      (SplitN er.Command colon 2)[1]? = some er2.commandName ∧
      (SplitN er.ReplyTo slash 5)[3]? = some er2.pipelineID := by
  obtain ⟨m, p3, hI, hN, _, hP⟩ := Parse_wellFormed er hc hr
  have h2 : SplitN er.Command colon 2
      = [er.Command.take m, er.Command.drop (m + 1)] := by
    simp [SplitN_two, splitLoop, hI]
  refine ⟨by simp [h2], ?_, _, hP, by simp [h2], by simp [h2], hN⟩
  rw [SplitN_five_length]
  rw [Split_length] at hr
  omega

/-- C8 at `Command = "git:commit"`, `ReplyTo = "a/b/c/pipe123/d"`. -/
theorem C8_Parse_cannot_fail_witness :
    1 < (SplitN (ascii "git:commit") colon 2).length ∧
    3 < (SplitN sampleReplyTo slash 5).length ∧
    ∃ er2, (mkRequest SampleValue (ascii "git:commit") sampleReplyTo).Parse = .returned er2 ∧
      (SplitN (ascii "git:commit") colon 2)[0]? = some er2.bundleName ∧
      (SplitN (ascii "git:commit") colon 2)[1]? = some er2.commandName ∧
      (SplitN sampleReplyTo slash 5)[3]? = some er2.pipelineID :=
  C8_Parse_cannot_fail (mkRequest SampleValue (ascii "git:commit") sampleReplyTo)
    (by decide) (by decide)

/-- C9: on a well-formed request (`Command` contains ":", `ReplyTo` has at
least four segments) `Parse` returns, and running `Parse` again on the result
returns that same request: the state, and with it `BundleName()`,
`CommandName()` and `PipelineID()`, is the same after the second run as after
the first. -/
theorem C9_Parse_idempotent (er : ExecutionRequest Value)
    (hc : colon ∈ er.Command) (hr : 4 ≤ (Split er.ReplyTo slash).length) :
    ∃ er1, er.Parse = .returned er1 ∧ er1.Parse = .returned er1 := by
  obtain ⟨m, p3, hI, hN, _, hP⟩ := Parse_wellFormed er hc hr
  refine ⟨_, hP, ?_⟩
  have h2 := Parse_of_Index_some
    { er with bundleName := er.Command.take m, commandName := er.Command.drop (m + 1),
              pipelineID := p3 } m hI
  simp only [hN] at h2
  exact h2

/-- C9 at `Command = "git:commit"`, `ReplyTo = "a/b/c/pipe123/d"`. -/
theorem C9_Parse_idempotent_witness :
    ∃ er1, (mkRequest SampleValue (ascii "git:commit") sampleReplyTo).Parse = .returned er1 ∧
      er1.Parse = .returned er1 :=
  C9_Parse_idempotent (mkRequest SampleValue (ascii "git:commit") sampleReplyTo)
    (by decide) (by decide)

/-- C10: whenever `Parse` returns, every wire field has the value it had
before, and the derived fields depend only on `Command` and `ReplyTo`: on any
other request with the same `Command` and `ReplyTo` (whatever its other fields
and its previous derived fields) `Parse` returns with the same `bundleName`,
`commandName` and `pipelineID`. -/
theorem C10_Parse_frame (er er2 : ExecutionRequest Value)
    (h : er.Parse = .returned er2) :
    (er2.Options = er.Options ∧ er2.Args = er.Args ∧ er2.CogEnv = er.CogEnv ∧
      er2.InvocationID = er.InvocationID ∧ er2.InvocationStep = er.InvocationStep ∧
      er2.Command = er.Command ∧ er2.ReplyTo = er.ReplyTo ∧
      er2.Requestor = er.Requestor ∧ er2.User = er.User ∧ er2.Room = er.Room ∧
      er2.ServiceToken = er.ServiceToken ∧ er2.ServicesRoot = er.ServicesRoot) ∧
    ∀ other : ExecutionRequest Value,
      other.Command = er.Command → other.ReplyTo = er.ReplyTo →
      ∃ other2, other.Parse = .returned other2 ∧
        other2.bundleName = er2.bundleName ∧ other2.commandName = er2.commandName ∧
        other2.pipelineID = er2.pipelineID := by
  obtain ⟨m, p3, hI, hN, rfl⟩ := Parse_returned_inv er er2 h
  refine ⟨⟨rfl, rfl, rfl, rfl, rfl, rfl, rfl, rfl, rfl, rfl, rfl, rfl⟩, ?_⟩
  intro other hcmd hreply
  have h2 := Parse_of_Index_some other m (by rw [hcmd]; exact hI)
  rw [hreply, hN] at h2
  refine ⟨_, h2, ?_, ?_, rfl⟩ <;> simp only [hcmd]

/-- C10 at `Command = "git:commit"`, `ReplyTo = "a/b/c/pipe123/d"`, compared
with the request of the same `Command` and `ReplyTo` that carries a `CogEnv`
and stale derived fields. -/
theorem C10_Parse_frame_witness :
    (mkRequest SampleValue (ascii "git:commit") sampleReplyTo).Parse.state.Command
      = ascii "git:commit" ∧
    ∃ other2,
      ({ mkRequest SampleValue (ascii "git:commit") sampleReplyTo with
          CogEnv := some (SampleValue.bool true), bundleName := ascii "stale",
          pipelineID := ascii "old" } : ExecutionRequest SampleValue).Parse
        = .returned other2 ∧
      other2.bundleName = ascii "git" ∧ other2.commandName = ascii "commit" ∧
      other2.pipelineID = ascii "pipe123" :=
  ⟨(C10_Parse_frame (mkRequest SampleValue (ascii "git:commit") sampleReplyTo)
      (mkRequest SampleValue (ascii "git:commit") sampleReplyTo).Parse.state rfl).1.2.2.2.2.2.1,
   (C10_Parse_frame (mkRequest SampleValue (ascii "git:commit") sampleReplyTo)
      (mkRequest SampleValue (ascii "git:commit") sampleReplyTo).Parse.state rfl).2
      { mkRequest SampleValue (ascii "git:commit") sampleReplyTo with
          CogEnv := some (SampleValue.bool true), bundleName := ascii "stale",
          pipelineID := ascii "old" } rfl rfl⟩

/-! ## Decomposition: the state left by a failed `Parse` -/

/-- C11, as the claim states it, fails: on a fresh request with
`Command = "gitcommit"` (no ":") `Parse` panics, and `bundleName`, empty
before, holds "gitcommit" afterwards; with `Command = "git:commit"` and
`ReplyTo = "a/b"` it panics after storing "git" and "commit". -/
theorem C11_counterexample :
    (mkRequest SampleValue (ascii "gitcommit") sampleReplyTo).bundleName = [] ∧
    (mkRequest SampleValue (ascii "gitcommit") sampleReplyTo).Parse.panic?
      = some (.indexOutOfRange .commandParts 1 1) ∧
    (mkRequest SampleValue (ascii "gitcommit") sampleReplyTo).Parse.state.bundleName
      = ascii "gitcommit" ∧
    (mkRequest SampleValue (ascii "git:commit") (ascii "a/b")).commandName = [] ∧
    (mkRequest SampleValue (ascii "git:commit") (ascii "a/b")).Parse.panic?
      = some (.indexOutOfRange .pipelineParts 3 2) ∧
    (mkRequest SampleValue (ascii "git:commit") (ascii "a/b")).Parse.state.bundleName
      = ascii "git" ∧
    (mkRequest SampleValue (ascii "git:commit") (ascii "a/b")).Parse.state.commandName
      = ascii "commit" := by
  decide

/-- C11 (amended): when `Parse` fails (`Command` without ":" or `ReplyTo` with
fewer than four segments) it panics and `pipelineID` is as before, but the
assignments made before the failing index stay: without a ":" in `Command`,
`bundleName` holds the whole of `Command` and `commandName` is as before; with
a ":" in `Command`, `bundleName` and `commandName` hold the parts of `Command`
before and after its first ":". -/
theorem C11_Parse_failure_state (er : ExecutionRequest Value)
    (hfail : colon ∉ er.Command ∨ (Split er.ReplyTo slash).length < 4) :
    er.Parse.panic? ≠ none ∧
    er.Parse.state.pipelineID = er.pipelineID ∧
    (colon ∉ er.Command →
      er.Parse.state.bundleName = er.Command ∧
      er.Parse.state.commandName = er.commandName) ∧
    (colon ∈ er.Command →
      colon ∉ er.Parse.state.bundleName ∧
      er.Parse.state.bundleName ++ [colon] ++ er.Parse.state.commandName = er.Command) := by
  cases hI : Index er.Command colon with
  | none =>
    have hnot : colon ∉ er.Command := (Index_eq_none_iff _ _).mp hI
    rw [Parse_of_Index_none er hI]
    refine ⟨by simp [Outcome.panic?], rfl, fun _ => ⟨rfl, rfl⟩, fun h => absurd h hnot⟩
  | some m =>
    have hin : colon ∈ er.Command := by
      by_contra hnot
      rw [(Index_eq_none_iff _ _).mpr hnot] at hI
      cases hI
    have hr : (Split er.ReplyTo slash).length < 4 := by
      cases hfail with
      | inl h => exact absurd hin h
      | inr h => exact h
    have hnone : (SplitN er.ReplyTo slash 5)[3]? = none := by
      apply List.getElem?_eq_none
      rw [SplitN_five_length]
      rw [Split_length] at hr
      omega
    obtain ⟨h1, h2⟩ := Index_some_spec colon er.Command m hI
    rw [Parse_of_Index_some er m hI, hnone]
    refine ⟨by simp [Outcome.panic?], rfl, fun h => absurd hin h, fun _ => ⟨h2, ?_⟩⟩
    simp only [Outcome.state, List.append_assoc, List.singleton_append]
    exact h1.symm

/-- C11 (amended) at `Command = "gitcommit"` on a fresh request. -/
theorem C11_Parse_failure_state_witness :
    (mkRequest SampleValue (ascii "gitcommit") sampleReplyTo).Parse.panic? ≠ none ∧
    (mkRequest SampleValue (ascii "gitcommit") sampleReplyTo).Parse.state.pipelineID = [] :=
  ⟨(C11_Parse_failure_state (mkRequest SampleValue (ascii "gitcommit") sampleReplyTo)
      (Or.inl (by decide))).1,
   (C11_Parse_failure_state (mkRequest SampleValue (ascii "gitcommit") sampleReplyTo)
      (Or.inl (by decide))).2.1⟩

/-! ## Resolution: the success path of `ToCircuitRequest` -/

/-- C12: when the registry maps `CommandName()` to a command (and
`compileEnvironment` leaves the `Stdin` of the context as it finds it),
`ToCircuitRequest` returns a non-nil context and a nil error; the executable of
the context is the `Executable` of that command; `Stdin` is the byte slice
`json.Marshal` returns for `CogEnv` when `CogEnv` is present, and is unset
(nil) when `CogEnv` is nil. -/
theorem C12_ToCircuitRequest_found (jsonMarshal : Value → MarshalResult)
    (compileEnvironment : CompileEnvironment Value)
    (er : ExecutionRequest Value) (bundle : Bundle) (relayConfig : Config)
    (useDynamicConfig : Bool) (command : BundleCommand)
    (hfound : mapIndex bundle.Commands er.CommandName = some command)
    (hframe : ∀ r : ExecRequest,
      (compileEnvironment er command r relayConfig useDynamicConfig).1.Stdin = r.Stdin) :
    ∃ retval,
      (er.ToCircuitRequest jsonMarshal compileEnvironment bundle relayConfig
        useDynamicConfig).1 = some retval ∧
      (er.ToCircuitRequest jsonMarshal compileEnvironment bundle relayConfig
        useDynamicConfig).2.2 = none ∧
      retval.Executable = some command.Executable ∧
      (∀ env, er.CogEnv = some env → retval.Stdin = (jsonMarshal env).1) ∧
      (er.CogEnv = none → retval.Stdin = none) := by
  cases henv : er.CogEnv with
  | none =>
    refine ⟨(compileEnvironment er command ExecRequest.zero relayConfig
      useDynamicConfig).1.SetExecutable command.Executable, ?_, ?_, rfl, ?_, ?_⟩
    · simp only [ExecutionRequest.ToCircuitRequest, hfound, henv]
    · simp only [ExecutionRequest.ToCircuitRequest, hfound]
    · intro env h; cases h
    · intro _
      simp only [ExecRequest.SetExecutable]
      rw [hframe ExecRequest.zero]
      rfl
  | some v =>
    refine ⟨{ (compileEnvironment er command ExecRequest.zero relayConfig
      useDynamicConfig).1.SetExecutable command.Executable with
      Stdin := (jsonMarshal v).1 }, ?_, ?_, rfl, ?_, ?_⟩
    · simp only [ExecutionRequest.ToCircuitRequest, hfound, henv]
    · simp only [ExecutionRequest.ToCircuitRequest, hfound]
    · intro env h
      cases h
      rfl
    · intro h; cases h

/-- C12 at the request parsed from "git:bar" with `CogEnv = true`, against the
bundle that contains "bar": `Stdin` is the JSON text `true`. -/
theorem C12_ToCircuitRequest_found_witness :
    ∃ retval,
      (({ mkRequest SampleValue (ascii "git:bar") sampleReplyTo with
          CogEnv := some (SampleValue.bool true) } :
        ExecutionRequest SampleValue).Parse.state.ToCircuitRequest sampleMarshal
        sampleCompileEnvironment sampleBundle sampleConfig false).1 = some retval ∧
      (({ mkRequest SampleValue (ascii "git:bar") sampleReplyTo with
          CogEnv := some (SampleValue.bool true) } :
        ExecutionRequest SampleValue).Parse.state.ToCircuitRequest sampleMarshal
        sampleCompileEnvironment sampleBundle sampleConfig false).2.2 = none ∧
      retval.Executable = some (ascii "/bin/bar") ∧
      retval.Stdin = some (ascii "true") := by
  obtain ⟨retval, h1, h2, h3, h4, _⟩ := C12_ToCircuitRequest_found sampleMarshal
    sampleCompileEnvironment
    ({ mkRequest SampleValue (ascii "git:bar") sampleReplyTo with
        CogEnv := some (SampleValue.bool true) } : ExecutionRequest SampleValue).Parse.state
    sampleBundle sampleConfig false { Executable := ascii "/bin/bar", Env := [] }
    (by decide) (fun _ => rfl)
  exact ⟨retval, h1, h2, h3, h4 (SampleValue.bool true) rfl⟩

/-! ## The accessors -/

/-- C13: on a request whose derived fields are at their zero value (`Parse`
not run), `BundleName()`, `CommandName()` and `PipelineID()` return the empty
string; and when `Parse` returns, they return what `Parse` stored:
`commandParts[0]`, `commandParts[1]` and `pipelineParts[3]`. -/
theorem C13_accessors (er : ExecutionRequest Value)
    (hunset : er.bundleName = [] ∧ er.commandName = [] ∧ er.pipelineID = []) :
    (er.BundleName = [] ∧ er.CommandName = [] ∧ er.PipelineID = []) ∧
    ∀ er2, er.Parse = .returned er2 →
      (SplitN er.Command colon 2)[0]? = some er2.BundleName ∧
      (SplitN er.Command colon 2)[1]? = some er2.CommandName ∧
      (SplitN er.ReplyTo slash 5)[3]? = some er2.PipelineID := by
  refine ⟨hunset, ?_⟩
  intro er2 h
  obtain ⟨m, p3, hI, hN, rfl⟩ := Parse_returned_inv er er2 h
  have h2 : SplitN er.Command colon 2
      = [er.Command.take m, er.Command.drop (m + 1)] := by
    simp [SplitN_two, splitLoop, hI]
  refine ⟨by simp [h2, ExecutionRequest.BundleName],
    by simp [h2, ExecutionRequest.CommandName], hN⟩

/-- C13 at a fresh request with `Command = "git:commit"`: empty before `Parse`,
"git", "commit" and "pipe123" after. -/
theorem C13_accessors_witness :
    ((mkRequest SampleValue (ascii "git:commit") sampleReplyTo).BundleName = [] ∧
      (mkRequest SampleValue (ascii "git:commit") sampleReplyTo).CommandName = [] ∧
      (mkRequest SampleValue (ascii "git:commit") sampleReplyTo).PipelineID = []) ∧
    (mkRequest SampleValue (ascii "git:commit") sampleReplyTo).Parse.state.BundleName
      = ascii "git" ∧
    (mkRequest SampleValue (ascii "git:commit") sampleReplyTo).Parse.state.CommandName
      = ascii "commit" ∧
    (mkRequest SampleValue (ascii "git:commit") sampleReplyTo).Parse.state.PipelineID
      = ascii "pipe123" :=
  ⟨(C13_accessors (mkRequest SampleValue (ascii "git:commit") sampleReplyTo)
      ⟨rfl, rfl, rfl⟩).1, by decide, by decide, by decide⟩

/-! ## The JSON form of the response -/

/-- On a valid UTF-8 string the encoder writes a literal that denotes the
string itself. -/
theorem encodedStringFrom_of_valid :
    ∀ (s : GoString) (skip : Nat), validStringFrom skip s = true →
      encodedStringFrom skip s = s := by
  intro s
  induction s with
  | nil => intro skip _; cases skip <;> rfl
  | cons b rest ih =>
    intro skip h
    cases skip with
    | succ k =>
      simp only [validStringFrom] at h
      simp only [encodedStringFrom, ih k h]
    | zero =>
      cases hd : decodeRuneSize (b :: rest) with
      | none => simp [validStringFrom, hd] at h
      | some size =>
        simp only [validStringFrom, hd] at h
        simp only [encodedStringFrom, hd, ih (size - 1) h]

theorem encodedString_of_valid (s : GoString) (h : ValidString s = true) :
    encodedString s = s :=
  encodedStringFrom_of_valid s 0 h

/-- The fields that `encoding/json` keeps for `ExecutionResponse`: `IsJSON`
and `Aborted` share the key "omit" and are both dropped. -/
theorem typeFields_eq :
    typeFields =
      [{ field := .Room, name := ascii "room", tagged := true, omitEmpty := false },
       { field := .Bundle, name := ascii "bundle", tagged := true, omitEmpty := false },
       { field := .Status, name := ascii "status", tagged := true, omitEmpty := false },
       { field := .StatusMessage, name := ascii "status_message", tagged := true,
         omitEmpty := false },
       { field := .Template, name := ascii "template", tagged := true, omitEmpty := true },
       { field := .Body, name := ascii "body", tagged := true, omitEmpty := false }] := by
  decide

theorem fieldByName_room : fieldByName (ascii "room") =
    some { field := .Room, name := ascii "room", tagged := true, omitEmpty := false } := by
  decide

theorem fieldByName_bundle : fieldByName (ascii "bundle") =
    some { field := .Bundle, name := ascii "bundle", tagged := true, omitEmpty := false } := by
  decide

theorem fieldByName_status : fieldByName (ascii "status") =
    some { field := .Status, name := ascii "status", tagged := true, omitEmpty := false } := by
  decide

theorem fieldByName_status_message : fieldByName (ascii "status_message") =
    some { field := .StatusMessage, name := ascii "status_message", tagged := true,
           omitEmpty := false } := by
  decide

theorem fieldByName_template : fieldByName (ascii "template") =
    some { field := .Template, name := ascii "template", tagged := true,
           omitEmpty := true } := by
  decide

theorem fieldByName_body : fieldByName (ascii "body") =
    some { field := .Body, name := ascii "body", tagged := true, omitEmpty := false } := by
  decide

/-- The object that `Marshal` writes when the body can be encoded. -/
theorem Marshal_eq (jsonMarshal : Value → MarshalResult) (r : ExecutionResponse Value)
    (text : Option (List Byte)) (hbody : encodeBody jsonMarshal r.Body = (text, none)) :
    r.Marshal jsonMarshal = .ok
      ([(ascii "room", JsonValue.string (encodedString r.Room)),
        (ascii "bundle", JsonValue.string (encodedString r.Bundle)),
        (ascii "status", JsonValue.string (encodedString r.Status)),
        (ascii "status_message", JsonValue.string (encodedString r.StatusMessage))] ++
       (if r.Template = [] then []
        else [(ascii "template", JsonValue.string (encodedString r.Template))]) ++
       [(ascii "body", JsonValue.raw (text.getD []))]) := by
  unfold ExecutionResponse.Marshal
  rw [typeFields_eq]
  by_cases ht : r.Template = []
  · simp [ExecutionResponse.marshalFields, ExecutionResponse.encodeField,
      ExecutionResponse.isEmptyValue, hbody, ht]
  · simp [ExecutionResponse.marshalFields, ExecutionResponse.encodeField,
      ExecutionResponse.isEmptyValue, hbody, ht]

/-- C14, as the claim states it, fails in two ways.  A room name that is not
valid UTF-8 (the byte 0xFF) is written as `\ufffd` and comes back as the three
bytes of U+FFFD, not as the byte 0xFF; and a response whose body is a channel
has no serialized form at all, `Marshal` returns an error. -/
theorem C14_counterexample :
    sampleBadRoomResponse.Room = [0xFF] ∧
    sampleBadRoomResponse.Marshal sampleMarshal = .ok
      [(ascii "room", JsonValue.string [0xEF, 0xBF, 0xBD]),
       (ascii "bundle", JsonValue.string (ascii "git")),
       (ascii "status", JsonValue.string (ascii "ok")),
       (ascii "status_message", JsonValue.string (ascii "done")),
       (ascii "template", JsonValue.string (ascii "commit")),
       (ascii "body", JsonValue.raw (ascii "null"))] ∧
    (ExecutionResponse.Unmarshal sampleUnmarshal
      [(ascii "room", JsonValue.string [0xEF, 0xBF, 0xBD]),
       (ascii "bundle", JsonValue.string (ascii "git")),
       (ascii "status", JsonValue.string (ascii "ok")),
       (ascii "status_message", JsonValue.string (ascii "done")),
       (ascii "template", JsonValue.string (ascii "commit")),
       (ascii "body", JsonValue.raw (ascii "null"))]
      (ExecutionResponse.zero SampleValue)).1.Room = [0xEF, 0xBF, 0xBD] ∧
    sampleChannelResponse.Marshal sampleMarshal
      = .error ⟨ascii "json: unsupported type: chan int"⟩ :=
  ⟨rfl, rfl, by decide, rfl⟩

/-- C14 (amended): for a response whose five string fields are valid UTF-8,
whose body `json.Marshal` encodes without error, and whose encoded body
`json.Unmarshal` reads back as the same value, `Marshal` succeeds; the object
has the keys "room", "bundle", "status", "status_message", "template" (left
out when `Template` is empty) and "body", and no key for `IsJSON` or
`Aborted`; and `Unmarshal` of that object into a zero `ExecutionResponse`
gives the response with `Room`, `Bundle`, `Status`, `StatusMessage`,
`Template` and `Body` as they were and `IsJSON`, `Aborted` false, without
error. -/
theorem C14_response_round_trip (jsonMarshal : Value → MarshalResult)
    (jsonUnmarshal : List Byte → Iface Value × Option GoError)
    (r : ExecutionResponse Value) (text : List Byte)
    (hroom : ValidString r.Room = true) (hbundle : ValidString r.Bundle = true)
    (hstatus : ValidString r.Status = true)
    (hmessage : ValidString r.StatusMessage = true)
    (htemplate : ValidString r.Template = true)
    (hbody : encodeBody jsonMarshal r.Body = (some text, none))
    (hback : jsonUnmarshal text = (r.Body, none)) :
    ∃ obj, r.Marshal jsonMarshal = .ok obj ∧
      obj.map Prod.fst =
        (if r.Template = [] then
          [ascii "room", ascii "bundle", ascii "status", ascii "status_message", ascii "body"]
        else
          [ascii "room", ascii "bundle", ascii "status", ascii "status_message",
           ascii "template", ascii "body"]) ∧
      ExecutionResponse.Unmarshal jsonUnmarshal obj (ExecutionResponse.zero Value)
        = ({ r with IsJSON := false, Aborted := false }, none) := by
  refine ⟨_, Marshal_eq jsonMarshal r (some text) hbody, ?_, ?_⟩
  · by_cases ht : r.Template = [] <;> simp [ht]
  · rw [encodedString_of_valid _ hroom, encodedString_of_valid _ hbundle,
      encodedString_of_valid _ hstatus, encodedString_of_valid _ hmessage,
      encodedString_of_valid _ htemplate]
    by_cases ht : r.Template = []
    · simp [ExecutionResponse.Unmarshal, fieldByName_room, fieldByName_bundle,
        fieldByName_status, fieldByName_status_message, fieldByName_body,
        ExecutionResponse.setField, ExecutionResponse.zero, hback, ht]
    · simp [ExecutionResponse.Unmarshal, fieldByName_room, fieldByName_bundle,
        fieldByName_status, fieldByName_status_message, fieldByName_template,
        fieldByName_body, ExecutionResponse.setField, ExecutionResponse.zero, hback, ht]

/-- C14 (amended) at the sample response (template "commit", body `true`,
both flags set) and at the same response with an empty template. -/
theorem C14_response_round_trip_witness :
    (∃ obj, sampleResponse.Marshal sampleMarshal = .ok obj ∧
      obj.map Prod.fst =
        [ascii "room", ascii "bundle", ascii "status", ascii "status_message",
         ascii "template", ascii "body"] ∧
      ExecutionResponse.Unmarshal sampleUnmarshal obj (ExecutionResponse.zero SampleValue)
        = ({ sampleResponse with IsJSON := false, Aborted := false }, none)) ∧
    (∃ obj, ({ sampleResponse with Template := [] } :
        ExecutionResponse SampleValue).Marshal sampleMarshal = .ok obj ∧
      obj.map Prod.fst =
        [ascii "room", ascii "bundle", ascii "status", ascii "status_message", ascii "body"] ∧
      ExecutionResponse.Unmarshal sampleUnmarshal obj (ExecutionResponse.zero SampleValue)
        = ({ sampleResponse with Template := [], IsJSON := false, Aborted := false }, none)) :=
  ⟨C14_response_round_trip sampleMarshal sampleUnmarshal sampleResponse (ascii "true")
      (by decide) (by decide) (by decide) (by decide) (by decide) rfl (by decide),
   C14_response_round_trip sampleMarshal sampleUnmarshal
      { sampleResponse with Template := [] } (ascii "true")
      (by decide) (by decide) (by decide) (by decide) (by decide) rfl (by decide)⟩

/-! ## Resolution: when `ToCircuitRequest` fails, and what it looks at -/

/-- The map index gives nil exactly for an absent key and for a nil entry. -/
theorem mapIndex_eq_none_iff (m : List (GoString × Option BundleCommand)) (key : GoString) :
    mapIndex m key = none ↔ (m.lookup key = none ∨ m.lookup key = some none) := by
  unfold mapIndex
  cases h : m.lookup key with
  | none => simp
  | some v => cases v <;> simp

/-- C16: `ToCircuitRequest` returns a non-nil error if and only if the map
index `bundle.Commands[er.CommandName()]` is nil, which is the case for an
absent key and for a nil entry; otherwise, whatever the other inputs are, it
returns a non-nil context and a nil error; and any error it returns is
`errorCommandNotFound`. -/
theorem C16_ToCircuitRequest_error_iff (jsonMarshal : Value → MarshalResult)
    (compileEnvironment : CompileEnvironment Value)
    (er : ExecutionRequest Value) (bundle : Bundle) (relayConfig : Config)
    (useDynamicConfig : Bool) :
    ((er.ToCircuitRequest jsonMarshal compileEnvironment bundle relayConfig
        useDynamicConfig).2.2 ≠ none ↔
      mapIndex bundle.Commands er.CommandName = none) ∧
    (mapIndex bundle.Commands er.CommandName = none ↔
      (bundle.Commands.lookup er.CommandName = none ∨
        bundle.Commands.lookup er.CommandName = some none)) ∧
    (mapIndex bundle.Commands er.CommandName ≠ none →
      (er.ToCircuitRequest jsonMarshal compileEnvironment bundle relayConfig
        useDynamicConfig).1 ≠ none ∧
      (er.ToCircuitRequest jsonMarshal compileEnvironment bundle relayConfig
        useDynamicConfig).2.2 = none) ∧
    ∀ e, (er.ToCircuitRequest jsonMarshal compileEnvironment bundle relayConfig
        useDynamicConfig).2.2 = some e → e = errorCommandNotFound := by
  refine ⟨?_, mapIndex_eq_none_iff _ _, ?_, ?_⟩
  · unfold ExecutionRequest.ToCircuitRequest
    cases mapIndex bundle.Commands er.CommandName <;> simp
  · unfold ExecutionRequest.ToCircuitRequest
    cases mapIndex bundle.Commands er.CommandName <;> simp
  · intro e
    unfold ExecutionRequest.ToCircuitRequest
    cases mapIndex bundle.Commands er.CommandName with
    | none => intro h; exact (Option.some.inj h).symm
    | some c => intro h; cases h

/-- C16 on the sample bundle: the request parsed from "git:foo" gets the error,
the request whose `CogEnv` cannot be encoded but whose command "bar" exists
does not. -/
theorem C16_ToCircuitRequest_error_iff_witness :
    ((mkRequest SampleValue (ascii "git:foo") sampleReplyTo).Parse.state.ToCircuitRequest
        sampleMarshal sampleCompileEnvironment sampleBundle sampleConfig false).2.2 ≠ none ∧
    (sampleChannelRequest.Parse.state.ToCircuitRequest
        sampleMarshal sampleCompileEnvironment sampleBundle sampleConfig false).2.2 = none :=
  ⟨(C16_ToCircuitRequest_error_iff sampleMarshal sampleCompileEnvironment
      (mkRequest SampleValue (ascii "git:foo") sampleReplyTo).Parse.state
      sampleBundle sampleConfig false).1.mpr (by decide),
   ((C16_ToCircuitRequest_error_iff sampleMarshal sampleCompileEnvironment
      sampleChannelRequest.Parse.state sampleBundle sampleConfig false).2.2.1
      (by decide)).2⟩

/-- C17: the result of `ToCircuitRequest` depends on the request's derived
fields only through `CommandName()`, as far as finding the command goes: two
requests with the same `CommandName()` (whatever their `BundleName()`) get,
against the same bundle, configuration and switch, the same error, a context
in the same cases, and the same bound executable; and a request whose
`commandName` is unset is looked up under the empty name. -/
theorem C17_ToCircuitRequest_ignores_bundle_name (jsonMarshal : Value → MarshalResult)
    (compileEnvironment : CompileEnvironment Value)
    (er1 er2 : ExecutionRequest Value) (bundle : Bundle) (relayConfig : Config)
    (useDynamicConfig : Bool)
    (hcmd : er1.CommandName = er2.CommandName) :
    (er1.ToCircuitRequest jsonMarshal compileEnvironment bundle relayConfig
        useDynamicConfig).2.2 =
      (er2.ToCircuitRequest jsonMarshal compileEnvironment bundle relayConfig
        useDynamicConfig).2.2 ∧
    (er1.ToCircuitRequest jsonMarshal compileEnvironment bundle relayConfig
        useDynamicConfig).1.isSome =
      (er2.ToCircuitRequest jsonMarshal compileEnvironment bundle relayConfig
        useDynamicConfig).1.isSome ∧
    (er1.ToCircuitRequest jsonMarshal compileEnvironment bundle relayConfig
        useDynamicConfig).1.map (fun r => r.Executable) =
      (er2.ToCircuitRequest jsonMarshal compileEnvironment bundle relayConfig
        useDynamicConfig).1.map (fun r => r.Executable) ∧
    (er1.commandName = [] →
      ((er1.ToCircuitRequest jsonMarshal compileEnvironment bundle relayConfig
        useDynamicConfig).2.2 = none ↔ mapIndex bundle.Commands [] ≠ none)) := by
  refine ⟨?_, ?_, ?_, ?_⟩
  · unfold ExecutionRequest.ToCircuitRequest
    rw [hcmd]
    cases mapIndex bundle.Commands er2.CommandName <;> rfl
  · unfold ExecutionRequest.ToCircuitRequest
    rw [hcmd]
    cases mapIndex bundle.Commands er2.CommandName <;> rfl
  · unfold ExecutionRequest.ToCircuitRequest
    rw [hcmd]
    cases mapIndex bundle.Commands er2.CommandName with
    | none => rfl
    | some c => cases er1.CogEnv <;> cases er2.CogEnv <;> rfl
  · intro h
    have hname : er1.CommandName = [] := h
    unfold ExecutionRequest.ToCircuitRequest
    rw [hname]
    cases mapIndex bundle.Commands [] <;> simp

/-- C17 at the requests parsed from "nosuchbundle:bar" and "git:bar": both
resolve against the bundle that contains "bar", to the same executable. -/
theorem C17_ToCircuitRequest_ignores_bundle_name_witness :
    (mkRequest SampleValue (ascii "nosuchbundle:bar") sampleReplyTo).Parse.state.BundleName
      = ascii "nosuchbundle" ∧
    ((mkRequest SampleValue (ascii "nosuchbundle:bar")
        sampleReplyTo).Parse.state.ToCircuitRequest sampleMarshal sampleCompileEnvironment
        sampleBundle sampleConfig false).2.2 = none ∧
    ((mkRequest SampleValue (ascii "nosuchbundle:bar")
        sampleReplyTo).Parse.state.ToCircuitRequest sampleMarshal sampleCompileEnvironment
        sampleBundle sampleConfig false).1.map (fun r => r.Executable) =
      ((mkRequest SampleValue (ascii "git:bar")
        sampleReplyTo).Parse.state.ToCircuitRequest sampleMarshal sampleCompileEnvironment
        sampleBundle sampleConfig false).1.map (fun r => r.Executable) :=
  ⟨by decide, by decide,
   (C17_ToCircuitRequest_ignores_bundle_name sampleMarshal sampleCompileEnvironment
      (mkRequest SampleValue (ascii "nosuchbundle:bar") sampleReplyTo).Parse.state
      (mkRequest SampleValue (ascii "git:bar") sampleReplyTo).Parse.state
      sampleBundle sampleConfig false (by decide)).2.2.1⟩

/-! ## Decomposition: the split limit -/

/-- Once the limit reaches the number of separators, no part contains one. -/
theorem splitLoop_sep_free (sep : Byte) :
    ∀ (k : Nat) (s : GoString), Count s sep ≤ k →
      ∀ x ∈ splitLoop sep k s, sep ∉ x := by
  intro k
  induction k with
  | zero =>
    intro s h x hx
    have h0 : Count s sep = 0 := by omega
    simp only [splitLoop, List.mem_singleton] at hx
    subst hx
    exact (Count_eq_zero_iff _ sep).mp h0
  | succ k ih =>
    intro s hk x hx
    cases h : Index s sep with
    | none =>
      simp only [splitLoop, h, List.mem_singleton] at hx
      subst hx
      exact (Index_eq_none_iff _ sep).mp h
    | some m =>
      have hc := Count_of_Index_some s sep m h
      simp only [splitLoop, h, List.mem_cons] at hx
      cases hx with
      | inl hx =>
        subst hx
        exact (Index_some_spec sep s m h).2
      | inr hx => exact ih (s.drop (m + 1)) (by omega) x hx

/-- No part of the full split contains the separator. -/
theorem Split_sep_free (s : GoString) (sep : Byte) :
    ∀ x ∈ Split s sep, sep ∉ x := by
  rw [Split_eq]
  exact splitLoop_sep_free sep (Count s sep) s (Nat.le_refl _)

/-- C18: whenever `Parse` returns, `PipelineID()` contains no "/", and
`SplitN(ReplyTo, "/", 5)[3]` is the element at index 3 of the unlimited split
of `ReplyTo` on "/", which is what `PipelineID()` holds; this covers `ReplyTo`
with exactly four segments and with five or more. -/
theorem C18_Parse_limit_harmless (er er2 : ExecutionRequest Value)
    (h : er.Parse = .returned er2) :
    slash ∉ er2.PipelineID ∧
    (SplitN er.ReplyTo slash 5)[3]? = (Split er.ReplyTo slash)[3]? ∧
    (Split er.ReplyTo slash)[3]? = some er2.PipelineID ∧
    4 ≤ (Split er.ReplyTo slash).length := by
  obtain ⟨m, p3, hI, hN, rfl⟩ := Parse_returned_inv er er2 h
  have heq := SplitN_five_getElem? er.ReplyTo slash 3 (by decide)
  have hS : (Split er.ReplyTo slash)[3]? = some p3 := by rw [← heq, hN]
  have hmem : p3 ∈ Split er.ReplyTo slash := List.getElem?_mem hS
  refine ⟨Split_sep_free er.ReplyTo slash p3 hmem, heq, hS, ?_⟩
  by_contra hlt
  have hnone : (Split er.ReplyTo slash)[3]? = none := by
    apply List.getElem?_eq_none
    omega
  rw [hnone] at hS
  cases hS

/-- C18 at `ReplyTo = "a/b/c/pipe123"` (exactly four segments) and at
`ReplyTo = "a/b/c/pipe123/d/e/f"` (seven segments, the limit of 5 is hit). -/
theorem C18_Parse_limit_harmless_witness :
    ((Split (ascii "a/b/c/pipe123") slash).length = 4 ∧
      slash ∉ (mkRequest SampleValue (ascii "git:commit")
        (ascii "a/b/c/pipe123")).Parse.state.PipelineID ∧
      (mkRequest SampleValue (ascii "git:commit")
        (ascii "a/b/c/pipe123")).Parse.state.PipelineID = ascii "pipe123") ∧
    ((Split (ascii "a/b/c/pipe123/d/e/f") slash).length = 7 ∧
      slash ∉ (mkRequest SampleValue (ascii "git:commit")
        (ascii "a/b/c/pipe123/d/e/f")).Parse.state.PipelineID ∧
      (mkRequest SampleValue (ascii "git:commit")
        (ascii "a/b/c/pipe123/d/e/f")).Parse.state.PipelineID = ascii "pipe123") :=
  ⟨⟨by decide,
    (C18_Parse_limit_harmless
      (mkRequest SampleValue (ascii "git:commit") (ascii "a/b/c/pipe123"))
      (mkRequest SampleValue (ascii "git:commit") (ascii "a/b/c/pipe123")).Parse.state
      rfl).1, by decide⟩,
   ⟨by decide,
    (C18_Parse_limit_harmless
      (mkRequest SampleValue (ascii "git:commit") (ascii "a/b/c/pipe123/d/e/f"))
      (mkRequest SampleValue (ascii "git:commit") (ascii "a/b/c/pipe123/d/e/f")).Parse.state
      rfl).1, by decide⟩⟩

end Messages
